import Mathlib

/-!
Shallow embedding of `fatresize.c` (the FAT16/FAT32 non-destructive resizer)
and verification of the frozen claims about it.

Conventions of the embedding:
* `PedSector` (C `long long`) is modelled as `Int`; where the C code can
  overflow a signed 64-bit multiplication, the result is wrapped with
  `i64wrap` (two's-complement wraparound, the behavior of the compiled code).
* A C function that can fail (`usage(1)` / `return NULL` / `return 0`)
  is modelled with `Option`.
* `PedGeometry` stores `start`, `length` and `end` with the invariant
  `end = start + length - 1` maintained by every libparted constructor
  used here (`ped_geometry_init/new/set/duplicate`), so it is modelled by
  the two fields `start` and `stop` (`end` is a Lean keyword) with
  `length` derived.
-/

namespace Fatresize

/-- Signed 64-bit maximum, C `LLONG_MAX`. -/
def LLONG_MAX : Int := 2 ^ 63 - 1

/-- Signed 64-bit minimum, C `LLONG_MIN`. -/
def LLONG_MIN : Int := -(2 ^ 63)

/-- Two's-complement wraparound of a signed 64-bit computation. -/
def i64wrap (n : Int) : Int := (n + 2 ^ 63) % 2 ^ 64 - 2 ^ 63

/-- C `isspace` (the six standard whitespace characters). -/
def isSpaceC (c : Char) : Bool :=
  c = ' ' || c = '\t' || c = '\n' || c = '\x0b' || c = '\x0c' || c = '\r'

/-- Value of a run of decimal digits (the conversion both `atoi` and
`strtoll` perform on the digit run). -/
def digitsVal (cs : List Char) : Nat :=
  cs.foldl (fun a c => a * 10 + (c.toNat - 48)) 0

/-- Model of C `strtoll(s, &suffix, 10)`: skips leading whitespace and an
optional sign, converts the longest run of decimal digits, and returns
`(value, rest-of-string, erange)` where `erange` records whether the
conversion overflowed the `long long` range (clamping the value, errno =
ERANGE).  When there are no digits it returns 0 with the whole input as
the rest. -/
def strtoll (cs : List Char) : Int × List Char × Bool :=
  let afterWs := cs.dropWhile isSpaceC
  let signed : Int × List Char :=
    match afterWs with
    | '-' :: t => (-1, t)
    | '+' :: t => (1, t)
    | _ => (1, afterWs)
  let digits := signed.2.takeWhile Char.isDigit
  let rest := signed.2.dropWhile Char.isDigit
  if digits = [] then (0, cs, false)
  else
    let v : Int := signed.1 * (digitsVal digits : Int)
    if v < LLONG_MIN then (LLONG_MIN, rest, true)
    else if LLONG_MAX < v then (LLONG_MAX, rest, true)
    else (v, rest, false)

/-- The `switch (*suffix)` of `get_size`: the cases `'G'`, `'M'`, `'k'`
fall through, so a `G` suffix also performs the `M` and `k` multiplication
steps; any other first character reaches `default:` and fails. Each
C multiplication `size *= prefix_kind` is wrapped to 64 bits. -/
def get_size_mul (c : Char) (prefix_kind size : Int) : Option Int :=
  if c = 'G' then
    some (i64wrap (i64wrap (i64wrap (size * prefix_kind) * prefix_kind) * prefix_kind))
  else if c = 'M' then
    some (i64wrap (i64wrap (size * prefix_kind) * prefix_kind))
  else if c = 'k' then
    some (i64wrap (size * prefix_kind))
  else none

/-- The numeric continuation of `get_size` (everything after the
`strncmp(s, "max", 3)` test): `strtoll`, the `size <= 0 || errno == ERANGE`
check, then the suffix analysis (`strlen(suffix) == 2 && suffix[1] == 'i'`
selects 1024, a longer suffix fails, otherwise 1000) and the cascading
switch. -/
def get_size_num (s : String) : Option Int :=
  let r := strtoll s.toList
  if r.1 ≤ 0 || r.2.2 then none
  else
    match r.2.1 with
    | [] => some r.1
    | c :: rest =>
      if rest.length = 1 && rest.headD ' ' = 'i' then get_size_mul c 1024 r.1
      else if 0 < rest.length then none
      else get_size_mul c 1000 r.1

/-- Model of `get_size`: `strncmp(s, MAX_SIZE_STR, sizeof(MAX_SIZE_STR)-1)`
compares only the first three characters, so any input whose first three
characters are `m`,`a`,`x` returns `LLONG_MAX`; everything else takes the
numeric path. -/
def get_size (s : String) : Option Int :=
  if s.toList.take 3 = ['m', 'a', 'x'] then some LLONG_MAX
  else get_size_num s

/-- Model of `PedGeometry`: inclusive sector span; `stop` is the C field
`end` and `length` is the derived `end - start + 1`. -/
structure PedGeometry where
  start : Int
  stop : Int
deriving DecidableEq, Repr

/-- Derived length of a geometry (`end - start + 1`). -/
def PedGeometry.length (g : PedGeometry) : Int := g.stop - g.start + 1

/-- Model of `ped_geometry_test_sector_inside`:
`sector >= geom->start && sector <= geom->end`. -/
def test_sector_inside (geom : PedGeometry) (sector : Int) : Bool :=
  decide (geom.start ≤ sector) && decide (sector ≤ geom.stop)

/-- Model of `ped_disk_get_partition_by_sector`: a disk is the list of its
partitions (each reduced to its geometry, the only field the snapper
reads); the lookup returns the first partition whose geometry contains the
sector. -/
def get_partition_by_sector (disk : List PedGeometry) (sector : Int) :
    Option PedGeometry :=
  disk.find? (fun p => test_sector_inside p sector)

/-- Model of `snap`: changes `sector` to `new_sector` when the new value
lies in `range`.  The `FAT_ASSERT` that the current sector lies in `range`
takes the action `return 0` on failure, leaving the sector unchanged.
Returns the (possibly updated) sector and the C return value. -/
def snap (sector new_sector : Int) (range : PedGeometry) : Int × Bool :=
  if !test_sector_inside range sector then (sector, false)
  else if !test_sector_inside range new_sector then (sector, false)
  else (new_sector, true)

/-- Model of `try_snap`: the variadic candidate list (terminated by `-1`
in C) becomes an explicit list; the first replacement accepted by `snap`
is adopted. -/
def try_snap (sector : Int) (range : PedGeometry) : List Int → Int
  | [] => sector
  | c :: cs =>
    let r := snap sector c range
    if r.2 then r.1 else try_snap r.1 range cs

/-- Start-side candidate list of `snap_to_boundaries`: with a known old
geometry `[old->start, start_part->geom.start, start_part->geom.end + 1]`,
without one the last two only. -/
def start_candidates (old : Option PedGeometry) (start_part : PedGeometry) :
    List Int :=
  (old.map (fun g => g.start)).toList ++ [start_part.start, start_part.stop + 1]

/-- End-side candidate list of `snap_to_boundaries`: with a known old
geometry `[old->end, end_part->geom.end, end_part->geom.start - 1]`,
without one the last two only. -/
def end_candidates (old : Option PedGeometry) (end_part : PedGeometry) :
    List Int :=
  (old.map (fun g => g.stop)).toList ++ [end_part.stop, end_part.start - 1]

/-- Model of `snap_to_boundaries`.  The two `FAT_ASSERT`s (`start_part`
exists, `start <= end` after snapping) take the action `return`, leaving
`new_geom` unmodified; a missing `end_part` also returns unmodified.  On
the success path `ped_geometry_set(new_geom, start, end - start + 1)`
rewrites the geometry. -/
def snap_to_boundaries (new_geom : PedGeometry) (old_geom : Option PedGeometry)
    (disk : List PedGeometry) (start_range end_range : PedGeometry) :
    PedGeometry :=
  match get_partition_by_sector disk new_geom.start with
  | none => new_geom
  | some start_part =>
    match get_partition_by_sector disk new_geom.stop with
    | none => new_geom
    | some end_part =>
      let s := try_snap new_geom.start start_range (start_candidates old_geom start_part)
      let e := try_snap new_geom.stop end_range (end_candidates old_geom end_part)
      if s ≤ e then { start := s, stop := e } else new_geom

/-- The libparted exception severities the spec's data model distinguishes
(`PedExceptionType`); `fatresize_handler` switches on INFORMATION and
WARNING, everything else reaches its `default:` label. -/
inductive PedExceptionType where
  | information
  | warning
  | error
  | fatal
deriving DecidableEq, Repr

/-- Libparted exception option flags (`PedExceptionOption`). -/
def PED_EXCEPTION_FIX : Nat := 1

/-- Libparted option flag YES. -/
def PED_EXCEPTION_YES : Nat := 2

/-- Libparted option flag NO. -/
def PED_EXCEPTION_NO : Nat := 4

/-- Libparted option flag OK. -/
def PED_EXCEPTION_OK : Nat := 8

/-- Libparted option flag RETRY. -/
def PED_EXCEPTION_RETRY : Nat := 16

/-- Libparted option flag IGNORE. -/
def PED_EXCEPTION_IGNORE : Nat := 32

/-- Libparted option flag CANCEL. -/
def PED_EXCEPTION_CANCEL : Nat := 64

/-- Combined flag set `PED_EXCEPTION_IGNORE_CANCEL = IGNORE | CANCEL`. -/
def PED_EXCEPTION_IGNORE_CANCEL : Nat := 96

/-- The unhandled sentinel `PED_EXCEPTION_UNHANDLED = 0`. -/
def PED_EXCEPTION_UNHANDLED : Nat := 0

/-- First option flag scanned, `PED_EXCEPTION_OPTION_FIRST = PED_EXCEPTION_FIX`. -/
def PED_EXCEPTION_OPTION_FIRST : Nat := 1

/-- The scanning loop of `option_get_next`:
`for (; i <= options; i <<= 1) if (options & i) return i; return 0;`.
The loop index at least doubles each iteration starting from a positive
value, so `options + 1` iterations always suffice; the fuel argument makes
the recursion structural. -/
def option_scan (options : Nat) : Nat → Nat → Nat
  | 0, _ => 0
  | fuel + 1, i =>
    if i ≤ options then
      if options &&& i ≠ 0 then i else option_scan options fuel (i <<< 1)
    else 0

/-- Model of `option_get_next`: starts the scan at `PED_EXCEPTION_OPTION_FIRST`
when `current == 0` and at `current << 1` otherwise. -/
def option_get_next (options current : Nat) : Nat :=
  option_scan options (options + 1)
    (if current = 0 then PED_EXCEPTION_OPTION_FIRST else current <<< 1)

/-- Model of `ped_exception_get_option_string` for the seven defined flags. -/
def ped_exception_get_option_string (opt : Nat) : String :=
  if opt = 1 then "Fix"
  else if opt = 2 then "Yes"
  else if opt = 4 then "No"
  else if opt = 8 then "OK"
  else if opt = 16 then "Retry"
  else if opt = 32 then "Ignore"
  else if opt = 64 then "Cancel"
  else ""

/-- C `strcasecmp(a, b) == 0`: case-insensitive equality (ASCII),
expressed over the character lists. -/
def strcaseeq (a b : String) : Bool :=
  a.toList.map Char.toLower = b.toList.map Char.toLower

/-- The inner matching loop of `ask_for_option`: enumerate the offered
options with `option_get_next` and return the first whose option string
equals the typed line case-insensitively.  The enumerated option strictly
increases each step, so fuel `options + 2` suffices. -/
def find_option_loop (options : Nat) (buf : String) : Nat → Nat → Option Nat
  | 0, _ => none
  | fuel + 1, opt =>
    if opt = 0 then none
    else if strcaseeq buf (ped_exception_get_option_string opt) then some opt
    else find_option_loop options buf fuel (option_get_next options opt)

/-- One prompt round of `ask_for_option`: match a typed line against the
offered options. -/
def find_option (options : Nat) (buf : String) : Option Nat :=
  find_option_loop options buf (options + 2) (option_get_next options 0)

/-- Model of `ask_for_option`: stdin is a list of (newline-stripped)
lines; `getline` failure — end of input — returns `PED_EXCEPTION_CANCEL`,
a line matching an offered option returns that option, and any other line
re-prompts. -/
def ask_for_option (options : Nat) : List String → Nat
  | [] => PED_EXCEPTION_CANCEL
  | line :: rest =>
    match find_option options line with
    | some opt => opt
    | none => ask_for_option options rest

/-- Model of `fatresize_handler`.  On INFORMATION/WARNING with
`opts.force_yes` set: `PED_EXCEPTION_IGNORE_CANCEL` resolves to IGNORE,
otherwise a sole offered option is taken and anything else resolves to
UNHANDLED; without force-yes the interactive prompt runs.  Every other
severity resolves to CANCEL. -/
def fatresize_handler (force_yes : Bool) (etype : PedExceptionType)
    (options : Nat) (input : List String) : Nat :=
  match etype with
  | .information | .warning =>
    if force_yes then
      if options = PED_EXCEPTION_IGNORE_CANCEL then PED_EXCEPTION_IGNORE
      else
        let opt := option_get_next options 0
        if option_get_next options opt = 0 then opt
        else PED_EXCEPTION_UNHANDLED
    else ask_for_option options input
  | .error | .fatal => PED_EXCEPTION_CANCEL

/-- The trailing run of decimal digits of a path, i.e. the characters the
pointer scan `while (*p && isdigit(*p) && *p != '/') p--;` walks over
(`isdigit('/')` is false, so that clause never fires). -/
def trailing_digits (s : String) : List Char :=
  (s.toList.reverse.takeWhile Char.isDigit).reverse

/-- Model of `get_partnum`: `pnum = atoi(p + 1)` converts the trailing
digit run (an empty run converts to 0) and `return pnum ? pnum : 1;`. -/
def get_partnum (dev : String) : Int :=
  let pnum : Int := (digitsVal (trailing_digits dev) : Int)
  if pnum = 0 then 1 else pnum

/-- The device name `get_device` builds from a partition path: the path
with its trailing digit run removed (`strncpy(devname, dev, p - dev + 1)`)
and, when the result is longer than three characters and ends in `p`
preceded by a digit (`p-dev > 2 && devname[p-dev] == 'p' &&
isdigit(devname[p-dev-1])`), that `p` removed as well (nvme-style names). -/
def device_base_name (dev : String) : String :=
  let cs := dev.toList
  let base := cs.take (cs.length - (trailing_digits dev).length)
  let chopP : Bool :=
    decide (3 < base.length) && decide (base.getLast? = some 'p') &&
      (base.dropLast.getLast?.elim false Char.isDigit)
  if chopP then String.mk base.dropLast else String.mk base

/-- Model of `get_device`.  The OS- and library-level outcomes are
abstracted: `stat_ok` is `stat(dev, &st) != -1`, `is_blk` is
`S_ISBLK && !S_ISCHR`, and `probe` gives the result of `probe_device` on
any path.  Returns `some (opts.device, opts.pnum)` for `return 1` and
`none` for `return 0`; `pnum0` is the value of `opts.pnum` on entry
(negative when no `-n` option was given). -/
def get_device (probe : String → Bool) (stat_ok is_blk : Bool) (pnum0 : Int)
    (dev : String) : Option (String × Int) :=
  if stat_ok = false then none
  else if is_blk = false then
    if probe dev then some (dev, pnum0) else none
  else
    let devname := device_base_name dev
    if probe devname then
      some (devname, if pnum0 < 0 then get_partnum dev else pnum0)
    else if probe dev then
      -- strcpy(devname, dev); probe again with the full path
      some (dev, pnum0)
    else none

/-- Model of the end-range derivation of `main` (the block between
`end = part_geom.start + opts.size / dev->sector_size;` and
`free(def_str);`):  `fmt` abstracts `ped_unit_format(dev, sector)` and
`parse` abstracts `ped_unit_parse(str, dev, &sector, &range)` (updating
the proposed end sector and producing the end range, or failing).  When
the formatted strings of the old end and the proposed end coincide the
end range is `ped_geometry_new(dev, part_geom.end, 1)` — a single-sector
range at the old end — and the proposed end sector is left as computed;
`ped_geometry_new` on a libparted device with that in-bounds sector
succeeds, so no failure is modelled there.  Returns the final
`(end, range_end)` pair or `none` for `return 1`. -/
def compute_end_range (fmt : Int → String)
    (parse : String → Option (Int × PedGeometry)) (sector_size : Int)
    (part_geom : PedGeometry) (size : Int) : Option (Int × PedGeometry) :=
  let e0 := part_geom.start + Int.tdiv size sector_size
  let old_str := fmt part_geom.stop
  let def_str := fmt e0
  if old_str = def_str then
    some (e0, { start := part_geom.stop, stop := part_geom.stop })
  else
    match parse def_str with
    | some r => some r
    | none => none

/-- Observable events of a run of `main`, restricted to the three calls
the temporal claims mention: the partition-geometry mutation
(`ped_disk_set_partition_geom`), the filesystem resize
(`ped_file_system_resize`) and the partition-table commit
(`ped_disk_commit`), each tagged with whether the call succeeded. -/
inductive Event where
  | set_geom (ok : Bool)
  | resize (ok : Bool)
  | commit (ok : Bool)
deriving DecidableEq, Repr

/-- The option state of `main` after argument parsing (only the fields
the control flow reads).  `device` records whether `opts.device` was set;
`size` is `opts.size` (0 when no `-s` was given). -/
structure Opts where
  device : Bool
  size : Int
  info : Bool
  pnum : Int

/-- Outcomes of the fallible collaborator calls of `main`, in program
order.  `fmt_eq` is the string comparison `!strcmp(old_str, def_str)`;
`part_busy` is `ped_partition_is_busy` (busy aborts the run). -/
structure Env where
  device_get : Bool
  device_open : Bool
  disk_new : Bool
  part_exists : Bool
  fs_type_exists : Bool
  fs_is_fat : Bool
  part_busy : Bool
  geom_init_whole : Bool
  fs_open_a : Bool
  constraint_a : Bool
  range_start_ok : Bool
  fmt_eq : Bool
  range_end_new_ok : Bool
  unit_parse_ok : Bool
  dup_ok : Bool
  new_geom_init_ok : Bool
  fs_open_b : Bool
  constraint_b : Bool
  set_geom_ok : Bool
  resize_ok : Bool
  commit_ok : Bool

/-- Tail of `main` from the `/* Resize partition */` comment on: the
geometry mutation (partition mode only), the filesystem resize, the
partition-type update and close (unfallible, no events), the commit
(partition mode only) and the boot-loader advisory (warning only, never
fails).  Returns the exit code and the event trace. -/
def main_run_tail (o : Opts) (e : Env) : Nat × List Event :=
  if 0 < o.pnum then
    if e.set_geom_ok = false then (1, [Event.set_geom false])
    else if e.resize_ok = false then
      (1, [Event.set_geom true, Event.resize false])
    else if e.commit_ok = false then
      (1, [Event.set_geom true, Event.resize true, Event.commit false])
    else (0, [Event.set_geom true, Event.resize true, Event.commit true])
  else
    if e.resize_ok = false then (1, [Event.resize false])
    else (0, [Event.resize true])

/-- Middle of `main`: the info/max constraint query, the info-mode early
exit (code 0), the start/end range derivation, geometry duplication and
initialisation, `snap_to_boundaries` (pure, no event), the second
filesystem open and the constraint intersection. -/
def main_run_mid (o : Opts) (e : Env) : Nat × List Event :=
  if (o.info = true ∨ o.size = LLONG_MAX) ∧ e.fs_open_a = false then (1, [])
  else if (o.info = true ∨ o.size = LLONG_MAX) ∧ e.constraint_a = false then (1, [])
  else if o.info = true then (0, [])
  else if e.range_start_ok = false then (1, [])
  else if e.fmt_eq = true ∧ e.range_end_new_ok = false then (1, [])
  else if e.fmt_eq = false ∧ e.unit_parse_ok = false then (1, [])
  else if e.dup_ok = false then (1, [])
  else if e.new_geom_init_ok = false then (1, [])
  else if e.fs_open_b = false then (1, [])
  else if e.constraint_b = false then (1, [])
  else main_run_tail o e

/-- Model of `main` from the post-getopt checks onward (line 538 of the
source), with every fallible collaborator call abstracted by its `Env`
outcome and the three mutation-relevant calls recorded in the trace.
Returns the exit code and the trace. -/
def main_run (o : Opts) (e : Env) : Nat × List Event :=
  if o.device = false then (1, [])
  else if o.size = 0 ∧ o.info = false then (1, [])
  else if e.device_get = false then (1, [])
  else if e.device_open = false then (1, [])
  else if 0 < o.pnum then
    if e.disk_new = false then (1, [])
    else if e.part_exists = false ∨ e.fs_type_exists = false then (1, [])
    else if e.fs_is_fat = false then (1, [])
    else if e.part_busy = true then (1, [])
    else main_run_mid o e
  else
    if e.geom_init_whole = false then (1, [])
    else main_run_mid o e

/-- Does every commit event in the trace come strictly after a successful
resize event?  (`true` on traces with no commit at all.) -/
def commit_after_resize : List Event → Bool
  | [] => true
  | Event.resize true :: _ => true
  | Event.commit _ :: _ => false
  | _ :: rest => commit_after_resize rest

/-! Helper lemmas about the size parser. -/

/-- On an input whose first three characters are `m`,`a`,`x` the
`strtoll` conversion finds no digits and returns 0 with the whole input
as the rest. -/
theorem strtoll_of_max_input (cs : List Char)
    (h : cs.take 3 = ['m', 'a', 'x']) : strtoll cs = (0, cs, false) := by
  rcases cs with _ | ⟨a, _ | ⟨b, _ | ⟨c, t⟩⟩⟩ <;> simp_all [List.take]
  obtain ⟨rfl, rfl, rfl⟩ := h
  rfl

/-- Claim C8 (confirmed): the size parser maps a leading positive integer
with an optional suffix to bytes by cascading multiplication through the
unit ladder: the concrete values of the spec hold, a bare integer is
returned as bytes, and a `G`/`Gi` suffix applies the `M` and `k`
multiplication steps as well (three successive multiplications by 1000
resp. 1024, each a wrapped 64-bit multiplication as in the compiled
code). -/
theorem get_size_unit_ladder :
    get_size "10k" = some 10000 ∧
    get_size "10ki" = some 10240 ∧
    get_size "1Gi" = some 1073741824 ∧
    (∀ (s : String) (v : Int), strtoll s.toList = (v, [], false) → 0 < v →
      get_size s = some v) ∧
    (∀ (s : String) (v : Int), strtoll s.toList = (v, ['G'], false) → 0 < v →
      get_size s =
        some (i64wrap (i64wrap (i64wrap (v * 1000) * 1000) * 1000))) ∧
    (∀ (s : String) (v : Int), strtoll s.toList = (v, ['G', 'i'], false) → 0 < v →
      get_size s =
        some (i64wrap (i64wrap (i64wrap (v * 1024) * 1024) * 1024))) := by
  refine ⟨by decide, by decide, by decide, ?_, ?_, ?_⟩
  · intro s v h hv
    by_cases hmax : s.toList.take 3 = ['m', 'a', 'x']
    · rw [strtoll_of_max_input s.toList hmax] at h
      rw [Prod.ext_iff] at h
      omega
    · have hv' : ¬ v ≤ 0 := by omega
      have h' : strtoll s.data = (v, [], false) := h
      have hmax' : ¬ s.data.take 3 = ['m', 'a', 'x'] := hmax
      simp [get_size, hmax', get_size_num, h', hv']
  · intro s v h hv
    by_cases hmax : s.toList.take 3 = ['m', 'a', 'x']
    · rw [strtoll_of_max_input s.toList hmax] at h
      rw [Prod.ext_iff] at h
      omega
    · have hv' : ¬ v ≤ 0 := by omega
      have h' : strtoll s.data = (v, ['G'], false) := h
      have hmax' : ¬ s.data.take 3 = ['m', 'a', 'x'] := hmax
      simp [get_size, hmax', get_size_num, h', hv', get_size_mul]
  · intro s v h hv
    by_cases hmax : s.toList.take 3 = ['m', 'a', 'x']
    · rw [strtoll_of_max_input s.toList hmax] at h
      rw [Prod.ext_iff] at h
      omega
    · have hv' : ¬ v ≤ 0 := by omega
      have h' : strtoll s.data = (v, ['G', 'i'], false) := h
      have hmax' : ¬ s.data.take 3 = ['m', 'a', 'x'] := hmax
      simp [get_size, hmax', get_size_num, h', hv', get_size_mul]

/-- Witness for C8: the general bare-integer conjunct applied at `"7"`. -/
theorem get_size_unit_ladder_witness : get_size "7" = some 7 :=
  get_size_unit_ladder.2.2.2.1 "7" 7 (by decide) (by decide)

/-- Counterexample to claim C7: `get_size` compares only the first three
characters (`strncmp(s, "max", 3)`), so the input `"maxfoo"` — which is
not `"max"` — yields the MAX sentinel instead of proceeding to numeric
parsing (whose result on `"maxfoo"` would be a failure). -/
theorem get_size_max_prefix_counterexample :
    get_size "maxfoo" = some LLONG_MAX ∧
    get_size_num "maxfoo" = none ∧
    ("maxfoo" : String) ≠ "max" := by
  refine ⟨by decide, by decide, by decide⟩

/-- Claim C7 as amended: the size parser returns the MAX sentinel exactly
when the first three characters of the input are `m`,`a`,`x`
(case-sensitively); every other input proceeds to numeric parsing. -/
theorem get_size_max_prefix_amended :
    (∀ s : String, s.toList.take 3 = ['m', 'a', 'x'] →
      get_size s = some LLONG_MAX) ∧
    (∀ s : String, s.toList.take 3 ≠ ['m', 'a', 'x'] →
      get_size s = get_size_num s) ∧
    get_size "maxfoo" = some LLONG_MAX := by
  refine ⟨?_, ?_, by decide⟩
  · intro s h
    have h' : s.data.take 3 = ['m', 'a', 'x'] := h
    simp [get_size, h']
  · intro s h
    have h' : ¬ s.data.take 3 = ['m', 'a', 'x'] := h
    simp [get_size, h']

/-- Witness for the amended C7 at the input `"maximum"`. -/
theorem get_size_max_prefix_amended_witness :
    get_size "maximum" = some LLONG_MAX :=
  get_size_max_prefix_amended.1 "maximum" (by decide)

/-- Counterexample to claim C9: overflow produced by the suffix
multiplications is not detected — `"9223372036854775807k"` converts to
`LLONG_MAX` without ERANGE and the `k` multiplication wraps to `-1000`,
which `get_size` returns as a success instead of failing. -/
theorem get_size_overflow_counterexample :
    get_size "9223372036854775807k" = some (-1000) ∧
    get_size "9223372036854775807k" ≠ none := by
  refine ⟨by decide, by decide⟩

/-- Claim C9 as amended: the parser fails for a zero or negative leading
integer, for a suffix other than `k`,`M`,`G`,`ki`,`Mi`,`Gi`, and when the
`strtoll` conversion itself overflows (ERANGE); the spec's concrete
failing inputs all fail.  (Overflow arising in the suffix multiplications
is not detected and wraps, see the counterexample.) -/
theorem get_size_invalid_amended :
    get_size "0" = none ∧
    get_size "-5" = none ∧
    get_size "10x" = none ∧
    get_size "10kik" = none ∧
    (∀ s : String, s.toList.take 3 ≠ ['m', 'a', 'x'] →
      (strtoll s.toList).1 ≤ 0 → get_size s = none) ∧
    (∀ s : String, s.toList.take 3 ≠ ['m', 'a', 'x'] →
      (strtoll s.toList).2.2 = true → get_size s = none) ∧
    (∀ (s : String) (v : Int) (c : Char) (rest : List Char),
      strtoll s.toList = (v, c :: rest, false) → 0 < v →
      ¬ ((c = 'k' ∨ c = 'M' ∨ c = 'G') ∧ (rest = [] ∨ rest = ['i'])) →
      get_size s = none) := by
  refine ⟨by decide, by decide, by decide, by decide, ?_, ?_, ?_⟩
  · intro s hmax h
    have hmax' : ¬ s.data.take 3 = ['m', 'a', 'x'] := hmax
    have h' : (strtoll s.data).1 ≤ 0 := h
    simp [get_size, hmax', get_size_num, h']
  · intro s hmax h
    have hmax' : ¬ s.data.take 3 = ['m', 'a', 'x'] := hmax
    have h' : (strtoll s.data).2.2 = true := h
    simp [get_size, hmax', get_size_num, h']
  · intro s v c rest h hv hbad
    by_cases hmax : s.toList.take 3 = ['m', 'a', 'x']
    · rw [strtoll_of_max_input s.toList hmax] at h
      rw [Prod.ext_iff] at h
      omega
    · have hv' : ¬ v ≤ 0 := by omega
      have h' : strtoll s.data = (v, c :: rest, false) := h
      have hmax' : ¬ s.data.take 3 = ['m', 'a', 'x'] := hmax
      have hmul : ∀ pk : Int, ¬ (c = 'k' ∨ c = 'M' ∨ c = 'G') →
          get_size_mul c pk v = none := by
        intro pk hc
        push_neg at hc
        simp [get_size_mul, hc.1, hc.2.1, hc.2.2]
      rcases rest with _ | ⟨x, rest'⟩
      · have hc : ¬ (c = 'k' ∨ c = 'M' ∨ c = 'G') := fun hcc =>
          hbad ⟨hcc, Or.inl rfl⟩
        simp [get_size, hmax', get_size_num, h', hv', hmul 1000 hc]
      · rcases rest' with _ | ⟨y, rest2⟩
        · by_cases hx : x = 'i'
          · subst hx
            have hc : ¬ (c = 'k' ∨ c = 'M' ∨ c = 'G') := fun hcc =>
              hbad ⟨hcc, Or.inr rfl⟩
            simp [get_size, hmax', get_size_num, h', hv', hmul 1024 hc]
          · simp [get_size, hmax', get_size_num, h', hv', hx]
        · simp [get_size, hmax', get_size_num, h', hv']

/-- Witness for the amended C9: the ERANGE conjunct applied at an input
whose magnitude exceeds the `long long` range. -/
theorem get_size_invalid_amended_witness :
    get_size "99999999999999999999" = none :=
  get_size_invalid_amended.2.2.2.2.2.1 "99999999999999999999" (by decide)
    (by decide)

/-! Claims about the exception handler. -/

/-- Claim C5 (confirmed): for INFO and WARNING events under the
force-accept policy the handler resolves without reading input (the
result is independent of the input stream): an offered set of exactly
IGNORE and CANCEL resolves to IGNORE, a singleton offered set resolves to
its sole option, and any other offered set resolves to UNHANDLED.  The
offered set is a combination of the seven defined `PedExceptionOption`
flags, hence a bitmask below 128. -/
theorem handler_force_yes_policy (t : PedExceptionType) (options : Nat)
    (input : List String)
    (ht : t = PedExceptionType.information ∨ t = PedExceptionType.warning)
    (hopt : options < 128) :
    (options = PED_EXCEPTION_IGNORE_CANCEL →
      fatresize_handler true t options input = PED_EXCEPTION_IGNORE) ∧
    ((∃ k, k < 7 ∧ options = 2 ^ k) →
      fatresize_handler true t options input = options) ∧
    (options ≠ PED_EXCEPTION_IGNORE_CANCEL → (∀ k, k < 7 → options ≠ 2 ^ k) →
      fatresize_handler true t options input = PED_EXCEPTION_UNHANDLED) := by
  have hin : fatresize_handler true t options input =
      fatresize_handler true t options [] := by
    rcases ht with rfl | rfl <;> rfl
  rw [hin]
  clear hin
  rcases ht with rfl | rfl <;> (clear input; revert hopt; revert options; decide)

/-- Witness for C5: a WARNING offering exactly IGNORE and CANCEL under
force-accept resolves to IGNORE without consuming the (nonempty) input. -/
theorem handler_force_yes_policy_witness :
    fatresize_handler true PedExceptionType.warning
      PED_EXCEPTION_IGNORE_CANCEL ["No"] = PED_EXCEPTION_IGNORE :=
  (handler_force_yes_policy PedExceptionType.warning PED_EXCEPTION_IGNORE_CANCEL
    ["No"] (Or.inr rfl) (by decide)).1 rfl

/-- Counterexample to claim C6: the handler also resolves to CANCEL in a
case the claim does not list — a WARNING under force-accept whose offered
set is the single option CANCEL resolves to CANCEL (by the sole-option
rule, claim C5) although the severity is neither ERROR nor FATAL and no
prompt (hence no end-of-input) is involved. -/
theorem handler_cancel_counterexample :
    fatresize_handler true PedExceptionType.warning PED_EXCEPTION_CANCEL []
        = PED_EXCEPTION_CANCEL ∧
    PedExceptionType.warning ≠ PedExceptionType.error ∧
    PedExceptionType.warning ≠ PedExceptionType.fatal := by
  refine ⟨by decide, by decide, by decide⟩

/-- An interactive prompt whose input stream contains no line matching an
offered option resolves to CANCEL at end of input. -/
theorem ask_for_option_no_match (options : Nat) (input : List String)
    (h : ∀ line ∈ input, find_option options line = none) :
    ask_for_option options input = PED_EXCEPTION_CANCEL := by
  induction input with
  | nil => rfl
  | cons line rest ih =>
    have hline := h line (List.mem_cons_self line rest)
    rw [ask_for_option, hline]
    exact ih fun l hl => h l (List.mem_cons_of_mem line hl)

/-- Claim C6 as amended: every ERROR or FATAL event resolves to CANCEL
whatever the offered set and policy, and an interactive (non-force) INFO
or WARNING prompt resolves to CANCEL whenever the input stream is
exhausted before a line matching an offered option name is read.  CANCEL
can additionally result when the CANCEL option itself is chosen (sole
offered option under force-accept, or typed at the prompt), so these are
not the only CANCEL cases. -/
theorem handler_cancel_amended :
    (∀ (force_yes : Bool) (t : PedExceptionType) (options : Nat)
        (input : List String),
      t = PedExceptionType.error ∨ t = PedExceptionType.fatal →
      fatresize_handler force_yes t options input = PED_EXCEPTION_CANCEL) ∧
    (∀ (t : PedExceptionType) (options : Nat) (input : List String),
      t = PedExceptionType.information ∨ t = PedExceptionType.warning →
      (∀ line ∈ input, find_option options line = none) →
      fatresize_handler false t options input = PED_EXCEPTION_CANCEL) := by
  constructor
  · rintro force t options input (rfl | rfl) <;> rfl
  · rintro t options input (rfl | rfl) h <;>
      exact ask_for_option_no_match options input h

/-- Witness for the amended C6: a WARNING prompt fed one non-matching
line and then end-of-input resolves to CANCEL. -/
theorem handler_cancel_amended_witness :
    fatresize_handler false PedExceptionType.warning
      PED_EXCEPTION_IGNORE_CANCEL ["bogus"] = PED_EXCEPTION_CANCEL :=
  handler_cancel_amended.2 PedExceptionType.warning PED_EXCEPTION_IGNORE_CANCEL
    ["bogus"] (Or.inr rfl) (by decide)

/-! Claims about the end-range derivation and partition-number
defaulting. -/

/-- Claim C2 (confirmed): when the proposed new end sector
(`part_geom.start + size / sector_size`) formats to the same display
string as the old end sector, the end range is the single-sector range
pinned at the old end sector and the result does not depend on the
unit-parse function (it is never invoked); otherwise the result is
exactly what parsing the formatted string of the proposed new end
yields. -/
theorem end_range_shortcut (fmt : Int → String)
    (parse : String → Option (Int × PedGeometry)) (sector_size : Int)
    (part_geom : PedGeometry) (size : Int) :
    (fmt part_geom.stop = fmt (part_geom.start + Int.tdiv size sector_size) →
      compute_end_range fmt parse sector_size part_geom size =
        some (part_geom.start + Int.tdiv size sector_size,
          { start := part_geom.stop, stop := part_geom.stop })) ∧
    (fmt part_geom.stop ≠ fmt (part_geom.start + Int.tdiv size sector_size) →
      compute_end_range fmt parse sector_size part_geom size =
        parse (fmt (part_geom.start + Int.tdiv size sector_size))) := by
  constructor
  · intro h
    simp [compute_end_range, h]
  · intro h
    simp only [compute_end_range, if_neg h]
    cases parse (fmt (part_geom.start + Int.tdiv size sector_size)) <;> rfl

/-- Witness for C2: with a formatter that is constant the two strings
coincide, so the range is pinned at the old end and the (always-failing)
parse function is never consulted. -/
theorem end_range_shortcut_witness :
    compute_end_range (fun _ => "1MB") (fun _ => none) 512
      { start := 0, stop := 100 } 4096 =
      some (8, { start := 100, stop := 100 }) :=
  (end_range_shortcut (fun _ => "1MB") (fun _ => none) 512
    { start := 0, stop := 100 } 4096).1 rfl

/-- Claim C10 (confirmed): with no partition number supplied
(`opts.pnum < 0`) and a path that stats as a block device whose derived
device name probes successfully, `get_device` takes the partition number
from the trailing decimal digits of the path; a path with no trailing
digits or with digits converting to zero defaults to partition 1, and the
resulting number is always at least 1 — never the whole-device mode of
`main` (which requires `pnum <= 0`). -/
theorem get_partnum_from_path (probe : String → Bool) (pnum0 : Int)
    (dev : String) (h1 : pnum0 < 0)
    (h2 : probe (device_base_name dev) = true) :
    get_device probe true true pnum0 dev =
      some (device_base_name dev, get_partnum dev) ∧
    1 ≤ get_partnum dev ∧
    (digitsVal (trailing_digits dev) = 0 → get_partnum dev = 1) ∧
    (digitsVal (trailing_digits dev) ≠ 0 →
      get_partnum dev = (digitsVal (trailing_digits dev) : Int)) := by
  refine ⟨?_, ?_, ?_, ?_⟩
  · simp [get_device, h2, h1]
  · unfold get_partnum
    simp only []
    split <;> omega
  · intro h
    simp [get_partnum, h]
  · intro h
    have h' : ¬ ((digitsVal (trailing_digits dev) : Int) = 0) := by
      exact_mod_cast h
    simp [get_partnum, h']

/-- Witness for C10 at the path `/dev/sda2`: device name `/dev/sda`,
partition number 2. -/
theorem get_partnum_from_path_witness :
    get_device (fun _ => true) true true (-1) "/dev/sda2" =
      some ("/dev/sda", 2) := by
  have h := (get_partnum_from_path (fun _ => true) (-1) "/dev/sda2"
    (by decide) (by decide)).1
  rw [h]
  decide

/-! Claim about the commit ordering of `main`. -/

set_option maxHeartbeats 2000000 in
/-- Claim C1 (confirmed): in every run of `main`, the partition table is
committed only after the filesystem resize call has returned success (any
commit event in the trace is preceded by a successful resize event), and
whenever the partition geometry was changed
(`ped_disk_set_partition_geom` succeeded) but the following filesystem
resize call — the only fallible step between the geometry mutation and
the commit — fails, the run exits with code 1 and `ped_disk_commit` is
never called. -/
theorem main_commit_only_after_resize (o : Opts) (e : Env) :
    commit_after_resize (main_run o e).2 = true ∧
    (Event.set_geom true ∈ (main_run o e).2 → e.resize_ok = false →
      (main_run o e).1 = 1 ∧ ∀ b, Event.commit b ∉ (main_run o e).2) := by
  have htail : main_run o e = (1, ([] : List Event)) ∨
      main_run o e = (0, ([] : List Event)) ∨
      main_run o e = main_run_tail o e := by
    have hmid : main_run_mid o e = (1, ([] : List Event)) ∨
        main_run_mid o e = (0, ([] : List Event)) ∨
        main_run_mid o e = main_run_tail o e := by
      unfold main_run_mid
      split_ifs <;> simp
    unfold main_run
    split_ifs <;> first
      | exact hmid
      | exact Or.inl rfl
  rcases htail with h | h | h <;> rw [h]
  · simp [commit_after_resize]
  · simp [commit_after_resize]
  · unfold main_run_tail
    split_ifs <;> simp_all [commit_after_resize]

/-- Witness for C1: a partition-mode run in which every step up to the
geometry mutation succeeds and the filesystem resize fails exits with
code 1 and never commits. -/
theorem main_commit_only_after_resize_witness :
    (main_run { device := true, size := 4096, info := false, pnum := 1 }
        { device_get := true, device_open := true, disk_new := true,
          part_exists := true, fs_type_exists := true, fs_is_fat := true,
          part_busy := false, geom_init_whole := true, fs_open_a := true,
          constraint_a := true, range_start_ok := true, fmt_eq := true,
          range_end_new_ok := true, unit_parse_ok := true, dup_ok := true,
          new_geom_init_ok := true, fs_open_b := true, constraint_b := true,
          set_geom_ok := true, resize_ok := false, commit_ok := true }).1 = 1 ∧
    ∀ b, Event.commit b ∉
      (main_run { device := true, size := 4096, info := false, pnum := 1 }
        { device_get := true, device_open := true, disk_new := true,
          part_exists := true, fs_type_exists := true, fs_is_fat := true,
          part_busy := false, geom_init_whole := true, fs_open_a := true,
          constraint_a := true, range_start_ok := true, fmt_eq := true,
          range_end_new_ok := true, unit_parse_ok := true, dup_ok := true,
          new_geom_init_ok := true, fs_open_b := true, constraint_b := true,
          set_geom_ok := true, resize_ok := false, commit_ok := true }).2 :=
  (main_commit_only_after_resize _ _).2 (by decide) rfl

/-! Helper lemmas about the boundary snapper. -/

/-- When the current sector is outside the allowed range, the
`FAT_ASSERT` inside `snap` fails on every candidate, so `try_snap` leaves
the sector unchanged. -/
theorem try_snap_of_not_inside (x : Int) (r : PedGeometry) (cs : List Int)
    (h : test_sector_inside r x = false) : try_snap x r cs = x := by
  induction cs with
  | nil => rfl
  | cons c cs ih => simp [try_snap, snap, h, ih]

/-- Characterisation of `try_snap`: when the current sector lies in the
allowed range the result is the first candidate inside the range (the
current sector when there is none); otherwise the sector is unchanged. -/
theorem try_snap_eq_find (x : Int) (r : PedGeometry) (cs : List Int) :
    try_snap x r cs =
      if test_sector_inside r x then
        ((cs.find? fun c => test_sector_inside r c).getD x)
      else x := by
  induction cs with
  | nil => by_cases hx : test_sector_inside r x <;> simp [try_snap, hx]
  | cons c cs ih =>
    by_cases hx : test_sector_inside r x
    · by_cases hc : test_sector_inside r c
      · simp [try_snap, snap, hx, hc]
      · simp [try_snap, snap, hx, hc, ih]
    · simp [try_snap, snap, hx, try_snap_of_not_inside x r cs (by simpa using hx)]

/-- Claim C3 (confirmed): when the requested new range has the same start
and end sectors as the old geometry, `snap_to_boundaries` leaves the
range equal to the old geometry exactly (hence with the same start, end
and derived length). -/
theorem snap_to_boundaries_noop (new_geom old_geom : PedGeometry)
    (disk : List PedGeometry) (start_range end_range : PedGeometry)
    (hs : new_geom.start = old_geom.start)
    (he : new_geom.stop = old_geom.stop) :
    snap_to_boundaries new_geom (some old_geom) disk start_range end_range =
      old_geom := by
  have hng : new_geom = old_geom := by
    cases new_geom
    cases old_geom
    simp_all
  subst hng
  unfold snap_to_boundaries
  cases hsp : get_partition_by_sector disk new_geom.start with
  | none => rfl
  | some sp =>
    cases hep : get_partition_by_sector disk new_geom.stop with
    | none => rfl
    | some ep =>
      have hstart : try_snap new_geom.start start_range
          (start_candidates (some new_geom) sp) = new_geom.start := by
        rw [try_snap_eq_find]
        by_cases hin : test_sector_inside start_range new_geom.start
        · simp [start_candidates, hin]
        · simp [hin]
      have hstop : try_snap new_geom.stop end_range
          (end_candidates (some new_geom) ep) = new_geom.stop := by
        rw [try_snap_eq_find]
        by_cases hin : test_sector_inside end_range new_geom.stop
        · simp [end_candidates, hin]
        · simp [hin]
      dsimp only
      rw [hstart, hstop]
      split
      · rfl
      · rfl

/-- Witness for C3 at a concrete disk and geometry. -/
theorem snap_to_boundaries_noop_witness :
    snap_to_boundaries { start := 10, stop := 20 }
        (some { start := 10, stop := 20 })
        [{ start := 0, stop := 100 }] { start := 10, stop := 10 }
        { start := 20, stop := 20 } = { start := 10, stop := 20 } :=
  snap_to_boundaries_noop { start := 10, stop := 20 } { start := 10, stop := 20 }
    [{ start := 0, stop := 100 }] { start := 10, stop := 10 }
    { start := 20, stop := 20 } rfl rfl

/-- Validity invariant of a single geometry (§3 of the spec:
`start <= end` for every SectorRange). -/
abbrev geom_ok (g : PedGeometry) : Prop := g.start ≤ g.stop

/-- Two partitions of a table occupy disjoint sector spans. -/
abbrev geom_disjoint (p q : PedGeometry) : Prop :=
  p.stop < q.start ∨ q.stop < p.start

/-- Well-formedness of a partition table: every entry is a valid
geometry and entries are pairwise disjoint (the invariant every
libparted `PedDisk` maintains and §3's PartitionTable assumes). -/
abbrev disk_wf (disk : List PedGeometry) : Prop :=
  (∀ p ∈ disk, geom_ok p) ∧ disk.Pairwise geom_disjoint

/-- In a well-formed table a sector lies inside at most one partition. -/
theorem disk_wf_unique {disk : List PedGeometry} (hwf : disk_wf disk)
    {p q : PedGeometry} (hp : p ∈ disk) (hq : q ∈ disk) {s : Int}
    (hps : test_sector_inside p s = true)
    (hqs : test_sector_inside q s = true) : p = q := by
  by_contra hne
  have hsymm : Symmetric geom_disjoint := fun a b h => Or.symm h
  have hd := hwf.2.forall hsymm hp hq hne
  simp only [test_sector_inside, Bool.and_eq_true, decide_eq_true_eq] at hps hqs
  rcases hd with h | h <;> omega

/-- The partition found for a sector is a member of the table. -/
theorem get_part_mem {disk : List PedGeometry} {s : Int} {p : PedGeometry}
    (h : get_partition_by_sector disk s = some p) : p ∈ disk :=
  List.mem_of_find?_eq_some h

/-- The partition found for a sector contains that sector. -/
theorem get_part_inside {disk : List PedGeometry} {s : Int} {p : PedGeometry}
    (h : get_partition_by_sector disk s = some p) :
    test_sector_inside p s = true := by
  have h' : disk.find? (fun q => test_sector_inside q s) = some p := h
  exact List.find?_some (p := fun q => test_sector_inside q s) h'

/-- A valid geometry contains its own start sector. -/
theorem inside_own_start {p : PedGeometry} (h : geom_ok p) :
    test_sector_inside p p.start = true := by
  simp only [test_sector_inside, Bool.and_eq_true, decide_eq_true_eq]
  exact ⟨le_refl _, h⟩

/-- A valid geometry contains its own end sector. -/
theorem inside_own_stop {p : PedGeometry} (h : geom_ok p) :
    test_sector_inside p p.stop = true := by
  simp only [test_sector_inside, Bool.and_eq_true, decide_eq_true_eq]
  exact ⟨h, le_refl _⟩

/-- The start candidate list with a known old geometry, written out. -/
theorem start_candidates_some (o sp : PedGeometry) :
    start_candidates (some o) sp = [o.start, sp.start, sp.stop + 1] := rfl

/-- The start candidate list without an old geometry, written out. -/
theorem start_candidates_none (sp : PedGeometry) :
    start_candidates none sp = [sp.start, sp.stop + 1] := rfl

/-- The end candidate list with a known old geometry, written out. -/
theorem end_candidates_some (o ep : PedGeometry) :
    end_candidates (some o) ep = [o.stop, ep.stop, ep.start - 1] := rfl

/-- The end candidate list without an old geometry, written out. -/
theorem end_candidates_none (ep : PedGeometry) :
    end_candidates none ep = [ep.stop, ep.start - 1] := rfl

/-- Stability of the partition-boundary start candidates: a start sector
snapped to a candidate from `start_part`'s boundary list is itself the
first in-range boundary candidate of the partition containing it. -/
theorem start_found_stable {disk : List PedGeometry} (hwf : disk_wf disk)
    (sr : PedGeometry) {sp sp1 : PedGeometry} {c : Int} (hspm : sp ∈ disk)
    (hf : [sp.start, sp.stop + 1].find?
        (fun x => test_sector_inside sr x) = some c)
    (hm1 : sp1 ∈ disk) (hi1 : test_sector_inside sp1 c = true) :
    [sp1.start, sp1.stop + 1].find?
      (fun x => test_sector_inside sr x) = some c := by
  have hspv : geom_ok sp := hwf.1 sp hspm
  by_cases h1 : test_sector_inside sr sp.start
  · rw [List.find?_cons_of_pos _ h1] at hf
    have hc : c = sp.start := (Option.some.inj hf).symm
    subst hc
    have hsp1eq : sp1 = sp :=
      disk_wf_unique hwf hm1 hspm hi1 (inside_own_start hspv)
    subst hsp1eq
    rw [List.find?_cons_of_pos _ h1]
  · rw [List.find?_cons_of_neg _ h1] at hf
    by_cases h2 : test_sector_inside sr (sp.stop + 1)
    · rw [List.find?_cons_of_pos _ h2] at hf
      have hc : c = sp.stop + 1 := (Option.some.inj hf).symm
      subst hc
      have hstart1 : sp1.start = sp.stop + 1 := by
        simp only [test_sector_inside, Bool.and_eq_true, decide_eq_true_eq]
          at hi1
        by_contra hne
        have hle : sp1.start ≤ sp.stop := by omega
        have hin1 : test_sector_inside sp1 sp.stop = true := by
          simp only [test_sector_inside, Bool.and_eq_true,
            decide_eq_true_eq]
          omega
        have : sp1 = sp :=
          disk_wf_unique hwf hm1 hspm hin1 (inside_own_stop hspv)
        subst this
        omega
      rw [show sp.stop + 1 = sp1.start from hstart1.symm] at h2 ⊢
      rw [List.find?_cons_of_pos _ h2]
    · rw [List.find?_cons_of_neg _ h2] at hf
      simp at hf

/-- Stability of the partition-boundary end candidates, the mirror image
of `start_found_stable`. -/
theorem end_found_stable {disk : List PedGeometry} (hwf : disk_wf disk)
    (er : PedGeometry) {ep ep1 : PedGeometry} {c : Int} (hepm : ep ∈ disk)
    (hf : [ep.stop, ep.start - 1].find?
        (fun x => test_sector_inside er x) = some c)
    (hm1 : ep1 ∈ disk) (hi1 : test_sector_inside ep1 c = true) :
    [ep1.stop, ep1.start - 1].find?
      (fun x => test_sector_inside er x) = some c := by
  have hepv : geom_ok ep := hwf.1 ep hepm
  by_cases h1 : test_sector_inside er ep.stop
  · rw [List.find?_cons_of_pos _ h1] at hf
    have hc : c = ep.stop := (Option.some.inj hf).symm
    subst hc
    have hep1eq : ep1 = ep :=
      disk_wf_unique hwf hm1 hepm hi1 (inside_own_stop hepv)
    subst hep1eq
    rw [List.find?_cons_of_pos _ h1]
  · rw [List.find?_cons_of_neg _ h1] at hf
    by_cases h2 : test_sector_inside er (ep.start - 1)
    · rw [List.find?_cons_of_pos _ h2] at hf
      have hc : c = ep.start - 1 := (Option.some.inj hf).symm
      subst hc
      have hstop1 : ep1.stop = ep.start - 1 := by
        simp only [test_sector_inside, Bool.and_eq_true, decide_eq_true_eq]
          at hi1
        by_contra hne
        have hle : ep.start ≤ ep1.stop := by omega
        have hin1 : test_sector_inside ep1 ep.start = true := by
          simp only [test_sector_inside, Bool.and_eq_true,
            decide_eq_true_eq]
          omega
        have : ep1 = ep :=
          disk_wf_unique hwf hm1 hepm hin1 (inside_own_start hepv)
        subst this
        omega
      rw [show ep.start - 1 = ep1.stop from hstop1.symm] at h2 ⊢
      rw [List.find?_cons_of_pos _ h2]
    · rw [List.find?_cons_of_neg _ h2] at hf
      simp at hf

/-- Re-snapping the start of an already-snapped range (against the
partition now containing it) leaves it unchanged, in a well-formed
table. -/
theorem start_snap_stable {disk : List PedGeometry} (hwf : disk_wf disk)
    (old : Option PedGeometry) (sr : PedGeometry) (s0 : Int)
    {sp sp1 : PedGeometry}
    (hsp : get_partition_by_sector disk s0 = some sp)
    (hsp1 : get_partition_by_sector disk
      (try_snap s0 sr (start_candidates old sp)) = some sp1) :
    try_snap (try_snap s0 sr (start_candidates old sp)) sr
        (start_candidates old sp1) =
      try_snap s0 sr (start_candidates old sp) := by
  by_cases hin : test_sector_inside sr s0
  · rw [try_snap_eq_find s0 sr (start_candidates old sp), if_pos hin]
      at hsp1 ⊢
    cases hf : (start_candidates old sp).find?
        (fun c => test_sector_inside sr c) with
    | none =>
      rw [hf] at hsp1
      simp only [Option.getD_none] at hsp1 ⊢
      have hsp1eq : sp1 = sp := by
        rw [hsp] at hsp1
        exact (Option.some.inj hsp1).symm
      subst hsp1eq
      rw [try_snap_eq_find, if_pos hin, hf]
      rfl
    | some c =>
      rw [hf] at hsp1
      simp only [Option.getD_some] at hsp1 ⊢
      have hcin : test_sector_inside sr c = true :=
        List.find?_some (p := fun x => test_sector_inside sr x) hf
      rw [try_snap_eq_find, if_pos hcin]
      have hm1 : sp1 ∈ disk := get_part_mem hsp1
      have hi1 : test_sector_inside sp1 c = true := get_part_inside hsp1
      have hspm : sp ∈ disk := get_part_mem hsp
      cases old with
      | none =>
        rw [start_candidates_none] at hf
        rw [start_candidates_none,
          start_found_stable hwf sr hspm hf hm1 hi1]
        rfl
      | some o =>
        rw [start_candidates_some] at hf
        rw [start_candidates_some]
        by_cases h0 : test_sector_inside sr o.start
        · rw [List.find?_cons_of_pos
            (p := fun x => test_sector_inside sr x) _ h0] at hf
          have hc : c = o.start := (Option.some.inj hf).symm
          subst hc
          rw [List.find?_cons_of_pos
            (p := fun x => test_sector_inside sr x) _ h0]
          rfl
        · rw [List.find?_cons_of_neg
            (p := fun x => test_sector_inside sr x) _ h0] at hf
          rw [List.find?_cons_of_neg
            (p := fun x => test_sector_inside sr x) _ h0]
          rw [start_found_stable hwf sr hspm hf hm1 hi1]
          rfl
  · have h1 : try_snap s0 sr (start_candidates old sp) = s0 :=
      try_snap_of_not_inside _ _ _ (by simpa using hin)
    rw [h1]
    exact try_snap_of_not_inside _ _ _ (by simpa using hin)

/-- Re-snapping the end of an already-snapped range leaves it unchanged,
in a well-formed table. -/
theorem end_snap_stable {disk : List PedGeometry} (hwf : disk_wf disk)
    (old : Option PedGeometry) (er : PedGeometry) (e0 : Int)
    {ep ep1 : PedGeometry}
    (hep : get_partition_by_sector disk e0 = some ep)
    (hep1 : get_partition_by_sector disk
      (try_snap e0 er (end_candidates old ep)) = some ep1) :
    try_snap (try_snap e0 er (end_candidates old ep)) er
        (end_candidates old ep1) =
      try_snap e0 er (end_candidates old ep) := by
  by_cases hin : test_sector_inside er e0
  · rw [try_snap_eq_find e0 er (end_candidates old ep), if_pos hin]
      at hep1 ⊢
    cases hf : (end_candidates old ep).find?
        (fun c => test_sector_inside er c) with
    | none =>
      rw [hf] at hep1
      simp only [Option.getD_none] at hep1 ⊢
      have hep1eq : ep1 = ep := by
        rw [hep] at hep1
        exact (Option.some.inj hep1).symm
      subst hep1eq
      rw [try_snap_eq_find, if_pos hin, hf]
      rfl
    | some c =>
      rw [hf] at hep1
      simp only [Option.getD_some] at hep1 ⊢
      have hcin : test_sector_inside er c = true :=
        List.find?_some (p := fun x => test_sector_inside er x) hf
      rw [try_snap_eq_find, if_pos hcin]
      have hm1 : ep1 ∈ disk := get_part_mem hep1
      have hi1 : test_sector_inside ep1 c = true := get_part_inside hep1
      have hepm : ep ∈ disk := get_part_mem hep
      cases old with
      | none =>
        rw [end_candidates_none] at hf
        rw [end_candidates_none,
          end_found_stable hwf er hepm hf hm1 hi1]
        rfl
      | some o =>
        rw [end_candidates_some] at hf
        rw [end_candidates_some]
        by_cases h0 : test_sector_inside er o.stop
        · rw [List.find?_cons_of_pos
            (p := fun x => test_sector_inside er x) _ h0] at hf
          have hc : c = o.stop := (Option.some.inj hf).symm
          subst hc
          rw [List.find?_cons_of_pos
            (p := fun x => test_sector_inside er x) _ h0]
          rfl
        · rw [List.find?_cons_of_neg
            (p := fun x => test_sector_inside er x) _ h0] at hf
          rw [List.find?_cons_of_neg
            (p := fun x => test_sector_inside er x) _ h0]
          rw [end_found_stable hwf er hepm hf hm1 hi1]
          rfl
  · have h1 : try_snap e0 er (end_candidates old ep) = e0 :=
      try_snap_of_not_inside _ _ _ (by simpa using hin)
    rw [h1]
    exact try_snap_of_not_inside _ _ _ (by simpa using hin)

/-- Claim C4 (confirmed): `snap_to_boundaries` is idempotent on
well-formed partition tables — applying it a second time to the range
produced by a first application, with the same old geometry, table and
constraint ranges, changes nothing. -/
theorem snap_to_boundaries_idempotent (new_geom : PedGeometry)
    (old_geom : Option PedGeometry) (disk : List PedGeometry)
    (start_range end_range : PedGeometry) (hwf : disk_wf disk) :
    snap_to_boundaries
        (snap_to_boundaries new_geom old_geom disk start_range end_range)
        old_geom disk start_range end_range =
      snap_to_boundaries new_geom old_geom disk start_range end_range := by
  cases hsp : get_partition_by_sector disk new_geom.start with
  | none =>
    have h1 : snap_to_boundaries new_geom old_geom disk start_range end_range
        = new_geom := by
      unfold snap_to_boundaries
      rw [hsp]
    rw [h1, h1]
  | some sp =>
    cases hep : get_partition_by_sector disk new_geom.stop with
    | none =>
      have h1 : snap_to_boundaries new_geom old_geom disk start_range
          end_range = new_geom := by
        unfold snap_to_boundaries
        rw [hsp, hep]
      rw [h1, h1]
    | some ep =>
      by_cases hle : try_snap new_geom.start start_range
          (start_candidates old_geom sp) ≤
          try_snap new_geom.stop end_range (end_candidates old_geom ep)
      · have h1 : snap_to_boundaries new_geom old_geom disk start_range
            end_range =
            { start := try_snap new_geom.start start_range
                (start_candidates old_geom sp),
              stop := try_snap new_geom.stop end_range
                (end_candidates old_geom ep) } := by
          unfold snap_to_boundaries
          rw [hsp, hep]
          dsimp only
          rw [if_pos hle]
        rw [h1]
        cases hsp1 : get_partition_by_sector disk
            (try_snap new_geom.start start_range
              (start_candidates old_geom sp)) with
        | none =>
          unfold snap_to_boundaries
          rw [hsp1]
        | some sp1 =>
          cases hep1 : get_partition_by_sector disk
              (try_snap new_geom.stop end_range
                (end_candidates old_geom ep)) with
          | none =>
            unfold snap_to_boundaries
            rw [hsp1]
            dsimp only
            rw [hep1]
          | some ep1 =>
            have hs2 := start_snap_stable hwf old_geom start_range
              new_geom.start hsp hsp1
            have he2 := end_snap_stable hwf old_geom end_range
              new_geom.stop hep hep1
            unfold snap_to_boundaries
            rw [hsp1]
            dsimp only
            rw [hep1]
            dsimp only
            rw [hs2, he2, if_pos hle]
      · have h1 : snap_to_boundaries new_geom old_geom disk start_range
            end_range = new_geom := by
          unfold snap_to_boundaries
          rw [hsp, hep]
          dsimp only
          rw [if_neg hle]
        rw [h1, h1]

/-- Witness for C4 on a concrete well-formed two-partition table where
the first application moves the end sector. -/
theorem snap_to_boundaries_idempotent_witness :
    snap_to_boundaries
        (snap_to_boundaries { start := 10, stop := 25 }
          (some { start := 10, stop := 20 })
          [{ start := 0, stop := 30 }, { start := 31, stop := 100 }]
          { start := 10, stop := 10 } { start := 22, stop := 40 })
        (some { start := 10, stop := 20 })
        [{ start := 0, stop := 30 }, { start := 31, stop := 100 }]
        { start := 10, stop := 10 } { start := 22, stop := 40 } =
      snap_to_boundaries { start := 10, stop := 25 }
        (some { start := 10, stop := 20 })
        [{ start := 0, stop := 30 }, { start := 31, stop := 100 }]
        { start := 10, stop := 10 } { start := 22, stop := 40 } :=
  snap_to_boundaries_idempotent { start := 10, stop := 25 }
    (some { start := 10, stop := 20 })
    [{ start := 0, stop := 30 }, { start := 31, stop := 100 }]
    { start := 10, stop := 10 } { start := 22, stop := 40 } (by decide)

end Fatresize
